import Mathlib

/-!
Verification development for the Vedic-Market-Energy screening bot.

The embedding covers the scoring function `score_stock` (src/main.py,
lines 162-258), the ranking / bucket-assignment / sector-cap loop of
`morning_run` (src/main.py, lines 307-420), the persisted key-value
state helpers (src/keep_alive.py, lines 62-91 and src/main.py, lines
410-414), and the control flow of `morning_run` around state-store
failures (src/main.py, lines 272-305 and 394-418).

Prices and volumes are embedded as rationals; the pandas_ta indicator
outputs (ATR, RSI, EMA, Bollinger / Keltner bands) are external-library
values and enter the model as inputs of type `TaOut`, exactly the
values the source extracts from them (the last valid element of each
indicator series, or `none` when the source's fallback branch fires).
-/

/-- Python `int(q)` on a float: truncation toward zero.  Lean's `Int`
division `q.num / q.den` is T-division, which truncates toward zero. -/
def pyTrunc (q : ℚ) : ℤ := q.num / (q.den : ℤ)

/-- Python `round` to an integer: round half to even (banker's rounding),
the semantics of CPython's built-in `round`. -/
def pyRound (q : ℚ) : ℤ :=
  if q - (⌊q⌋ : ℚ) < 1/2 then ⌊q⌋
  else if 1/2 < q - (⌊q⌋ : ℚ) then ⌊q⌋ + 1
  else if ⌊q⌋ % 2 = 0 then ⌊q⌋ else ⌊q⌋ + 1

/-- Python `round(x, 1)`. -/
def round1 (q : ℚ) : ℚ := (pyRound (10 * q) : ℚ) / 10

/-- Python `round(x, 2)`. -/
def round2 (q : ℚ) : ℚ := (pyRound (100 * q) : ℚ) / 100

/-- src/main.py line 21: `SECTOR_CAP = 2` (max buys per sector). -/
def SECTOR_CAP : Nat := 2

/-- src/main.py line 22: `MIN_VOL_FLOOR = 100000`. -/
def MIN_VOL_FLOOR : ℚ := 100000

/-- src/main.py line 23: `MIN_PRICE = 50`. -/
def MIN_PRICE : ℚ := 50

/-- One daily OHLCV bar of the downloaded dataframe (the columns
`score_stock` reads: High, Low, Close, Volume). -/
structure Bar where
  high : ℚ
  low : ℚ
  close : ℚ
  volume : ℚ
deriving DecidableEq

instance : Inhabited Bar := ⟨⟨0, 0, 0, 0⟩⟩

/-- The values `score_stock` extracts from the pandas_ta indicator
calls.  `atr` is `float(atr.dropna().iloc[-1])` when
`atr is not None and not atr.dropna().empty`, else `none`
(src/main.py lines 188-192); `rsi` is the last RSI value when
`ta.rsi` returned a series, else `none` (line 205); `ema` likewise
(line 212); `bands` is `(BBU, BBL, KCU, KCL)` when both band frames
exist and the four floats are extractable, else `none`
(lines 225-241, where the `except: pass` leaves both flags False). -/
structure TaOut where
  atr : Option ℚ
  rsi : Option ℚ
  ema : Option ℚ
  bands : Option (ℚ × ℚ × ℚ × ℚ)
deriving DecidableEq

/-- Python `float(close.iloc[-1])` — the latest close (src/main.py line 175). -/
def lastClose (bars : List Bar) : ℚ := ((bars.getLast?).getD default).close

/-- Python `float(volume.iloc[-1])` — the latest volume (src/main.py line 220). -/
def lastVolume (bars : List Bar) : ℚ := ((bars.getLast?).getD default).volume

/-- Python `float(volume.rolling(20).mean().iloc[-1])` — mean of the last 20
volumes (src/main.py line 181). -/
def avgVol20 (bars : List Bar) : ℚ :=
  (((bars.map (fun b => b.volume)).drop (bars.length - 20)).sum) / 20

/-- src/main.py lines 188-195: the ATR actually used for risk levels —
the last ATR value, defaulting to `price * 0.02` when unavailable, and
floored at `price * 0.005`. -/
def effAtr (price : ℚ) (a : Option ℚ) : ℚ :=
  if a.getD (price * (2/100)) < price * (5/1000) then price * (5/1000)
  else a.getD (price * (2/100))

/-- src/main.py line 205: `rsi_val = int(rsi.dropna().iloc[-1]) if rsi is
not None else 50`. -/
def rsiValue (ta : TaOut) : ℤ :=
  match ta.rsi with
  | some q => pyTrunc q
  | none => 50

/-- src/main.py line 212: `ema_val = float(ema.dropna().iloc[-1]) if ema
is not None else price`. -/
def emaValue (price : ℚ) (ta : TaOut) : ℚ := ta.ema.getD price

/-- src/main.py line 213: `stretch = (price - ema_val) / ema_val * 100`. -/
def stretchOf (price : ℚ) (ta : TaOut) : ℚ :=
  (price - emaValue price ta) / emaValue price ta * 100

/-- src/main.py lines 206-208: the RSI component of the score. -/
def rsiPoints (rv : ℤ) : ℤ :=
  if 70 ≤ rv then 30 else if 60 ≤ rv then 20 else if 50 ≤ rv then 10 else 0

/-- src/main.py lines 215-217: the trend (EMA stretch) component. -/
def trendPoints (st : ℚ) : ℤ :=
  if 5 < st then -15 else if st < -2 then 10 else if 0 < st then 25 else 0

/-- src/main.py lines 221-222: the volume component, applied to the
rounded ratio. -/
def volPoints (vf : ℚ) : ℤ :=
  if 5/2 ≤ vf then 20 else if 3/2 ≤ vf then 10 else 0

/-- src/main.py line 220: `vol_ratio = round(volume[-1] / avg_vol, 2)`. -/
def volFactorOf (bars : List Bar) : ℚ :=
  round2 (lastVolume bars / avgVol20 bars)

/-- src/main.py line 238: `squeeze_now = (bbu < kcu) and (bbl > kcl)`;
False when the band frames are unavailable (lines 228-241). -/
def squeezeNow (ta : TaOut) : Bool :=
  match ta.bands with
  | some (bbu, bbl, kcu, kcl) => decide (bbu < kcu) && decide (kcl < bbl)
  | none => false

/-- src/main.py line 239: `breakout = price > bbu`; False when the band
frames are unavailable. -/
def breakoutNow (price : ℚ) (ta : TaOut) : Bool :=
  match ta.bands with
  | some (bbu, _, _, _) => decide (bbu < price)
  | none => false

/-- src/main.py lines 201-248: the raw (pre-clamp) score: RSI points,
trend points, volume points, `+10` for a squeeze, `+10` for a breakout,
and `+15` for the memory bonus (`was_squeezing and not squeeze_now and
breakout`). -/
def rawScore (bars : List Bar) (ta : TaOut) (wasSqueezing : Bool) : ℤ :=
  rsiPoints (rsiValue ta)
  + trendPoints (stretchOf (lastClose bars) ta)
  + volPoints (volFactorOf bars)
  + (if squeezeNow ta then 10 else 0)
  + (if breakoutNow (lastClose bars) ta then 10 else 0)
  + (if wasSqueezing && !(squeezeNow ta) && breakoutNow (lastClose bars) ta
     then 15 else 0)

/-- The dictionary returned by `score_stock` (src/main.py lines 250-258). -/
structure SignalResult where
  score : ℤ
  volFactor : ℚ
  squeeze : Bool
  breakout : Bool
  sl : ℚ
  tgt : ℚ
  price : ℚ
deriving DecidableEq

/-- src/main.py lines 162-258, `score_stock(df, was_squeezing)`.
Returns `none` when the series is shorter than 50 bars (line 166) or
fails the liquidity floor / penny-stock filter (lines 180-185); the
`except: return None` guard around the price extraction (lines 174-177)
only fires on an empty series, which the length check already rejects.
Otherwise assembles the score components and clamps to [0, 100]
(line 251). -/
def score_stock (bars : List Bar) (ta : TaOut) (wasSqueezing : Bool) :
    Option SignalResult :=
  if bars.length < 50 then none
  else if avgVol20 bars < MIN_VOL_FLOOR ∨ lastClose bars < MIN_PRICE then none
  else some
    { score := min 100 (max 0 (rawScore bars ta wasSqueezing))
      volFactor := volFactorOf bars
      squeeze := squeezeNow ta
      breakout := breakoutNow (lastClose bars) ta
      sl := round1 (lastClose bars - 2 * effAtr (lastClose bars) ta.atr)
      tgt := round1 (lastClose bars + 4 * effAtr (lastClose bars) ta.atr)
      price := lastClose bars }

/-- A concrete 50-bar series: every bar closes at 100 on volume 200000. -/
def bars4 : List Bar := List.replicate 50 ⟨110, 95, 100, 200000⟩

/-- Indicator outputs for the concrete series: ATR 1, RSI 65, EMA 99,
band frames unavailable. -/
def ta4 : TaOut := ⟨some 1, some 65, some 99, none⟩

lemma bars4_length : bars4.length = 50 := by simp [bars4]

lemma bars4_lastClose : lastClose bars4 = 100 := by
  simp [lastClose, bars4, List.getLast?_replicate]

lemma bars4_lastVolume : lastVolume bars4 = 200000 := by
  simp [lastVolume, bars4, List.getLast?_replicate]

lemma bars4_avgVol : avgVol20 bars4 = 200000 := by
  norm_num [avgVol20, bars4, List.sum_replicate, smul_eq_mul]

lemma bars4_volFactor : volFactorOf bars4 = 1 := by
  rw [volFactorOf, bars4_lastVolume, bars4_avgVol]
  norm_num [round2, pyRound]

lemma ta4_rsi : rsiValue ta4 = 65 := by
  simp [rsiValue, ta4, pyTrunc]

lemma ta4_stretch : stretchOf 100 ta4 = 100/99 := by
  norm_num [stretchOf, emaValue, ta4]

/-- One entry of the `results` list built in `morning_run`
(src/main.py lines 325-338): the `score_stock` dictionary augmented
with `symbol` and `sector`. -/
structure ScoredR extends SignalResult where
  symbol : String
  sector : String
deriving DecidableEq

/-- One step of Python's stable descending sort
(`results.sort(key=lambda x: x['score'], reverse=True)`, src/main.py
line 341): insert `r` after every element of strictly greater score,
before the first element of less-or-equal score, so that equal scores
keep their arrival order. -/
def insertDesc (r : ScoredR) : List ScoredR → List ScoredR
  | [] => [r]
  | x :: xs => if r.score < x.score then x :: insertDesc r xs else r :: x :: xs

/-- src/main.py line 341: the stable sort by score descending. -/
def sortResults (l : List ScoredR) : List ScoredR := l.foldr insertDesc []

/-- The bucket labels assigned in src/main.py lines 348-359. -/
inductive Bucket
  | STRONG_BUY
  | BUY
  | WATCHLIST
deriving DecidableEq

/-- Python's `"BUY" in bucket` substring test (src/main.py lines 355
and 366): true for `"STRONG_BUY"` and `"BUY"`, false for
`"WATCHLIST"`. -/
def Bucket.isBuy : Bucket → Bool
  | .STRONG_BUY => true
  | .BUY => true
  | .WATCHLIST => false

/-- src/main.py lines 313-316: `macro_risk_off = news.get("noise", 0) >
0.75`. -/
def riskOffFlag (noise : ℚ) : Bool := decide (3/4 < noise)

/-- src/main.py lines 348-353: the bucket before the sector cap is
applied. -/
def baseBucket (riskOff : Bool) (r : ScoredR) : Bucket :=
  if 80 ≤ r.score ∧ r.breakout = true ∧ riskOff = false then .STRONG_BUY
  else if 65 ≤ r.score then .BUY
  else .WATCHLIST

/-- Python `sector_counts.get(sec, 0)` on the association list that
models the `sector_counts` dict (src/main.py line 357). -/
def lookupCount : List (String × Nat) → String → Nat
  | [], _ => 0
  | (k, c) :: rest, sec => if k = sec then c else lookupCount rest sec

/-- Python `sector_counts[sec] = n` (src/main.py line 361). -/
def setCount : List (String × Nat) → String → Nat → List (String × Nat)
  | [], sec, n => [(sec, n)]
  | (k, c) :: rest, sec, n =>
    if k = sec then (k, n) :: rest else (k, c) :: setCount rest sec n

/-- src/main.py lines 355-361: demote a BUY-tier bucket to WATCHLIST
when the sector already holds `SECTOR_CAP` buys, otherwise keep it and
increment the sector's count. -/
def applySectorCap (counts : List (String × Nat)) (sec : String) (b : Bucket) :
    Bucket × List (String × Nat) :=
  if b.isBuy then
    if SECTOR_CAP ≤ lookupCount counts sec then (Bucket.WATCHLIST, counts)
    else (b, setCount counts sec (lookupCount counts sec + 1))
  else (b, counts)

/-- src/main.py lines 347-364: the bucket-assignment loop over the
sorted results, threading the `sector_counts` dict and appending every
candidate (with its final bucket) to `final_picks`. -/
def assignBuckets (riskOff : Bool) :
    List ScoredR → List (String × Nat) → List (ScoredR × Bucket)
  | [], _ => []
  | r :: rest, counts =>
    (r, (applySectorCap counts r.sector (baseBucket riskOff r)).1)
      :: assignBuckets riskOff rest
          (applySectorCap counts r.sector (baseBucket riskOff r)).2

/-- src/main.py lines 313-364: the ranking-and-allocation pipeline of
`morning_run` — keep the results scoring at least 55 (line 337), sort
by score descending (line 341), then run the bucket/sector-cap loop
starting from an empty `sector_counts` dict. -/
def rankAndAllocate (noise : ℚ) (results : List ScoredR) :
    List (ScoredR × Bucket) :=
  assignBuckets (riskOffFlag noise)
    (sortResults (results.filter (fun r => decide (55 ≤ r.score)))) []

/-- Outcome of one `morning_run` invocation: either the early `return`
of the state-initialization `except` branch (src/main.py lines
303-305), or a completed run carrying the produced picks and whether
the batch write succeeded (the write `except` at lines 416-418 only
logs and sends an alert). -/
inductive RunOutcome
  | aborted
  | completed (picks : List (ScoredR × Bucket)) (persisted : Bool)
deriving DecidableEq

/-- src/main.py lines 263-420, `morning_run`, abstracted over the two
fallible store interactions: `stateReadOk` is whether the state /
history / memory reads of lines 272-305 succeed (on failure the
function prints and returns before any scoring), and `batchWriteOk` is
whether the batch writes of lines 394-418 succeed (on failure the
exception is caught after the picks are already built). -/
def morning_run (stateReadOk batchWriteOk : Bool) (noise : ℚ)
    (results : List ScoredR) : RunOutcome :=
  if stateReadOk = false then RunOutcome.aborted
  else RunOutcome.completed (rankAndAllocate noise results) batchWriteOk

/-- What `score_stock bars ta wasSq = some r` unpacks to: the series
passed the length check and the liquidity/penny filters, and `r` is
the assembled record. -/
lemma score_stock_some_iff (bars : List Bar) (ta : TaOut) (wasSq : Bool)
    (r : SignalResult) (h : score_stock bars ta wasSq = some r) :
    ¬ bars.length < 50 ∧
    ¬ (avgVol20 bars < MIN_VOL_FLOOR ∨ lastClose bars < MIN_PRICE) ∧
    r = { score := min 100 (max 0 (rawScore bars ta wasSq))
          volFactor := volFactorOf bars
          squeeze := squeezeNow ta
          breakout := breakoutNow (lastClose bars) ta
          sl := round1 (lastClose bars - 2 * effAtr (lastClose bars) ta.atr)
          tgt := round1 (lastClose bars + 4 * effAtr (lastClose bars) ta.atr)
          price := lastClose bars } := by
  rw [score_stock] at h
  split_ifs at h with h1 h2
  · exact ⟨h1, h2, (Option.some.inj h).symm⟩

/-- The value of `pyRound` is within one half of its argument. -/
lemma pyRound_bounds (q : ℚ) :
    q - 1/2 ≤ (pyRound q : ℚ) ∧ (pyRound q : ℚ) ≤ q + 1/2 := by
  have h1 : (⌊q⌋ : ℚ) ≤ q := Int.floor_le q
  have h2 : q - 1 < (⌊q⌋ : ℚ) := Int.sub_one_lt_floor q
  rw [pyRound]
  split_ifs with ha hb hc
  · constructor <;> linarith
  · constructor <;> push_cast <;> linarith
  · constructor <;> linarith [not_lt.mp ha, not_lt.mp hb]
  · constructor <;> push_cast <;> linarith [not_lt.mp ha, not_lt.mp hb]

/-- The value of `round1` is within one twentieth of its argument. -/
lemma round1_bounds (q : ℚ) :
    q - 1/20 ≤ round1 q ∧ round1 q ≤ q + 1/20 := by
  obtain ⟨h1, h2⟩ := pyRound_bounds (10 * q)
  rw [round1]
  constructor <;> linarith

/-- The ATR actually used is floored at 0.5% of price
(src/main.py lines 194-195). -/
lemma effAtr_ge (price : ℚ) (a : Option ℚ) :
    price * (5/1000) ≤ effAtr price a := by
  rw [effAtr]
  split_ifs with h
  · exact le_refl _
  · exact le_of_not_lt h

/-- src/keep_alive.py lines 75-91 (`set_last_eod_run`) and the
equivalent find/update/append sequence at src/main.py lines 410-414:
walk the state rows, update the value of the first row whose key
matches in place, and append a fresh row only when no row matched. -/
def setKey : List (String × String) → String → String → List (String × String)
  | [], key, value => [(key, value)]
  | (k, v) :: rest, key, value =>
    if k = key then (k, value) :: rest
    else (k, v) :: setKey rest key value

/-- The concrete `SignalResult` that `score_stock` produces on `bars4`
and `ta4`: RSI 65 gives +20, stretch 100/99 gives +25, volume ratio 1
gives 0, no bands, so score 45; ATR 1 gives stop 98 and target 104. -/
def r45 : SignalResult :=
  { score := 45, volFactor := 1, squeeze := false, breakout := false
    sl := 98, tgt := 104, price := 100 }

lemma score_stock_bars4 : score_stock bars4 ta4 false = some r45 := by
  rw [score_stock]
  rw [if_neg (by rw [bars4_length]; omega)]
  rw [if_neg (by rw [bars4_avgVol, bars4_lastClose]
                 norm_num [MIN_VOL_FLOOR, MIN_PRICE])]
  congr 1
  simp only [r45, SignalResult.mk.injEq]
  refine ⟨?_, bars4_volFactor, ?_, ?_, ?_, ?_, bars4_lastClose⟩
  · rw [rawScore, bars4_lastClose, ta4_rsi, ta4_stretch, bars4_volFactor]
    norm_num [rsiPoints, trendPoints, volPoints, squeezeNow, breakoutNow, ta4]
  · simp [squeezeNow, ta4]
  · simp [breakoutNow, ta4]
  · rw [bars4_lastClose]
    norm_num [effAtr, ta4, round1, pyRound]
  · rw [bars4_lastClose]
    norm_num [effAtr, ta4, round1, pyRound]

/-- Claim C5 (confirmed): every result `score_stock` returns has
`0 ≤ score ≤ 100` — the assembled score is clamped by
`min(100, max(0, score))` at src/main.py line 251. -/
theorem score_bounds (bars : List Bar) (ta : TaOut) (wasSq : Bool)
    (r : SignalResult) (h : score_stock bars ta wasSq = some r) :
    0 ≤ r.score ∧ r.score ≤ 100 := by
  obtain ⟨-, -, rfl⟩ := score_stock_some_iff bars ta wasSq r h
  constructor
  · show 0 ≤ min 100 (max 0 (rawScore bars ta wasSq))
    omega
  · show min 100 (max 0 (rawScore bars ta wasSq)) ≤ 100
    omega

/-- Witness for C5 at the concrete series `bars4`. -/
theorem score_bounds_witness : 0 ≤ r45.score ∧ r45.score ≤ 100 :=
  score_bounds bars4 ta4 false r45 score_stock_bars4

/-- Claim C8 (confirmed): `score_stock` is deterministic — it is a pure
function of the series, the indicator outputs and the squeeze-memory
flag, so two invocations on equal inputs return identical results
(same score, volume ratio, squeeze and breakout flags), with no other
inputs (wall-clock time, other symbols' data) to depend on. -/
theorem score_stock_deterministic (bars1 bars2 : List Bar)
    (ta1 ta2 : TaOut) (f1 f2 : Bool)
    (hb : bars1 = bars2) (ht : ta1 = ta2) (hf : f1 = f2) :
    score_stock bars1 ta1 f1 = score_stock bars2 ta2 f2 := by
  subst hb; subst ht; subst hf; rfl

/-- Witness for C8 at the concrete series `bars4`. -/
theorem score_stock_deterministic_witness :
    score_stock bars4 ta4 false = score_stock bars4 ta4 false :=
  score_stock_deterministic bars4 bars4 ta4 ta4 false false rfl rfl rfl

/-- Claim C9 (confirmed): whenever the 20-bar average volume is below
100000 or the latest close is below 50, `score_stock` returns `None`
(src/main.py lines 180-185), regardless of the series' length or the
indicator values. -/
theorem liquidity_floor_rejects (bars : List Bar) (ta : TaOut)
    (wasSq : Bool)
    (h : avgVol20 bars < 100000 ∨ lastClose bars < 50) :
    score_stock bars ta wasSq = none := by
  rw [score_stock]
  split_ifs with h1 h2
  · rfl
  · rfl
  · exact absurd h h2

/-- A 50-bar series whose close (40) is under the penny-stock floor. -/
def barsLow : List Bar := List.replicate 50 ⟨45, 38, 40, 200000⟩

lemma barsLow_lastClose : lastClose barsLow = 40 := by
  simp [lastClose, barsLow, List.getLast?_replicate]

/-- Witness for C9: the 50-bar series closing at 40 is rejected. -/
theorem liquidity_floor_rejects_witness :
    score_stock barsLow ta4 false = none :=
  liquidity_floor_rejects barsLow ta4 false
    (Or.inr (by rw [barsLow_lastClose]; norm_num))

/-- Claim C10 (confirmed): for every non-`None` result, the ATR used
for risk levels is floored at 0.5% of the latest close, the returned
levels are `round(price - 2*ATR, 1)` and `round(price + 4*ATR, 1)`,
and they bracket the price: `stop_loss < price < target`. -/
theorem risk_levels_bracket_price (bars : List Bar) (ta : TaOut)
    (wasSq : Bool) (r : SignalResult)
    (h : score_stock bars ta wasSq = some r) :
    lastClose bars * (5/1000) ≤ effAtr (lastClose bars) ta.atr ∧
    r.sl = round1 (r.price - 2 * effAtr (lastClose bars) ta.atr) ∧
    r.tgt = round1 (r.price + 4 * effAtr (lastClose bars) ta.atr) ∧
    r.sl < r.price ∧ r.price < r.tgt := by
  obtain ⟨-, h2, rfl⟩ := score_stock_some_iff bars ta wasSq r h
  have hp : (50:ℚ) ≤ lastClose bars := by
    rcases not_or.mp h2 with ⟨-, hB⟩
    simpa [MIN_PRICE] using not_lt.mp hB
  have ha : lastClose bars * (5/1000) ≤ effAtr (lastClose bars) ta.atr :=
    effAtr_ge _ _
  obtain ⟨hs1, hs2⟩ :=
    round1_bounds (lastClose bars - 2 * effAtr (lastClose bars) ta.atr)
  obtain ⟨ht1, ht2⟩ :=
    round1_bounds (lastClose bars + 4 * effAtr (lastClose bars) ta.atr)
  refine ⟨ha, rfl, rfl, ?_, ?_⟩
  · show round1 (lastClose bars - 2 * effAtr (lastClose bars) ta.atr)
        < lastClose bars
    linarith
  · show lastClose bars
        < round1 (lastClose bars + 4 * effAtr (lastClose bars) ta.atr)
    linarith

/-- Witness for C10 at the concrete series `bars4`. -/
theorem risk_levels_bracket_price_witness :
    lastClose bars4 * (5/1000) ≤ effAtr (lastClose bars4) ta4.atr ∧
    r45.sl = round1 (r45.price - 2 * effAtr (lastClose bars4) ta4.atr) ∧
    r45.tgt = round1 (r45.price + 4 * effAtr (lastClose bars4) ta4.atr) ∧
    r45.sl < r45.price ∧ r45.price < r45.tgt :=
  risk_levels_bracket_price bars4 ta4 false r45 score_stock_bars4

/-- Modelled from the spec (§4.2 step 5), for comparison with the code:
score assembly as the spec words it — momentum `+30` if RSI>60, `+15`
if RSI>50, else `+5`; trend `+10` if HEALTHY, `-20` if OVERSTRETCHED
(`stretch > 4`), `0` otherwise; volume `+15` if ratio≥2.0, `+10` if
ratio≥1.5, else `0`; `+5` if squeezed; clamped to [0,100]. -/
def spec_score (rv : ℤ) (st vf : ℚ) (sq : Bool) : ℤ :=
  min 100 (max 0
    ((if 60 < rv then 30 else if 50 < rv then 15 else 5)
      + (if 4 < st then -20 else if st < -2 then 0 else 10)
      + (if 2 ≤ vf then 15 else if 3/2 ≤ vf then 10 else 0)
      + (if sq then 5 else 0)))

/-- Claim C4 (corrected), counterexample: on `bars4`/`ta4` the code's
score (45: RSI 65 → +20, stretch ≈ 1% → +25) differs from the
spec-worded assembly (40: RSI 65 → +30, HEALTHY → +10), so the claimed
component table is not the one the code uses. -/
theorem score_assembly_differs_from_spec :
    (score_stock bars4 ta4 false).map (fun r => r.score)
      ≠ some (spec_score (rsiValue ta4) (stretchOf (lastClose bars4) ta4)
          (volFactorOf bars4) (squeezeNow ta4)) := by
  rw [score_stock_bars4, Option.map_some']
  rw [bars4_lastClose, ta4_rsi, ta4_stretch, bars4_volFactor]
  have hs : spec_score 65 (100/99) 1 (squeezeNow ta4) = 40 := by
    norm_num [spec_score, squeezeNow, ta4]
  rw [hs]
  simp [r45]

/-- Claim C4 (corrected): the assembled score equals the
clamped-to-[0,100] sum of the code's actual components — RSI `+30` if
≥70, `+20` if ≥60, `+10` if ≥50, else 0; stretch `-15` if >5%, `+10`
if <-2%, `+25` if >0, else 0; volume ratio `+20` if ≥2.5, `+10` if
≥1.5, else 0; `+10` for a squeeze; `+10` for a breakout; `+15` memory
bonus when it was squeezing, stopped, and broke out. -/
theorem score_assembly_components (bars : List Bar) (ta : TaOut)
    (wasSq : Bool) (r : SignalResult)
    (h : score_stock bars ta wasSq = some r) :
    r.score = min 100 (max 0
      (rsiPoints (rsiValue ta)
        + trendPoints (stretchOf (lastClose bars) ta)
        + volPoints (volFactorOf bars)
        + (if squeezeNow ta then 10 else 0)
        + (if breakoutNow (lastClose bars) ta then 10 else 0)
        + (if wasSq && !(squeezeNow ta) && breakoutNow (lastClose bars) ta
           then 15 else 0))) := by
  obtain ⟨-, -, rfl⟩ := score_stock_some_iff bars ta wasSq r h
  rfl

/-- Witness for the corrected C4 at the concrete series `bars4`. -/
theorem score_assembly_components_witness :
    r45.score = min 100 (max 0
      (rsiPoints (rsiValue ta4)
        + trendPoints (stretchOf (lastClose bars4) ta4)
        + volPoints (volFactorOf bars4)
        + (if squeezeNow ta4 then 10 else 0)
        + (if breakoutNow (lastClose bars4) ta4 then 10 else 0)
        + (if false && !(squeezeNow ta4) && breakoutNow (lastClose bars4) ta4
           then 15 else 0))) :=
  score_assembly_components bars4 ta4 false r45 score_stock_bars4

/-- After `setKey`, the rows for `key` are exactly `(key, value)`
followed by whatever duplicate rows beyond the first were already
present: the first matching row is overwritten in place, and a row is
appended only when none matched. -/
lemma setKey_filter (k d : String) :
    ∀ (s : List (String × String)),
      (setKey s k d).filter (fun row => decide (row.1 = k))
        = (k, d) :: ((s.filter (fun row => decide (row.1 = k))).drop 1)
  | [] => by simp [setKey]
  | (a, v) :: rest => by
    by_cases hak : a = k
    · subst hak
      simp [setKey, List.filter_cons]
    · simp [setKey, hak, List.filter_cons, setKey_filter k d rest]

/-- When no row holds the key, `setKey` appends one row at the end. -/
lemma setKey_absent (k d : String) :
    ∀ (s : List (String × String)),
      s.filter (fun row => decide (row.1 = k)) = [] →
      setKey s k d = s ++ [(k, d)]
  | [] => fun _ => rfl
  | (a, v) :: rest => by
    intro h
    by_cases hak : a = k
    · rw [List.filter_cons, if_pos (by simp [hak])] at h
      exact absurd h (by simp)
    · rw [List.filter_cons, if_neg (by simp [hak])] at h
      simp [setKey, hak, setKey_absent k d rest h]

/-- When some row holds the key, `setKey` updates in place and the row
count is unchanged. -/
lemma setKey_present_length (k d : String) :
    ∀ (s : List (String × String)),
      s.filter (fun row => decide (row.1 = k)) ≠ [] →
      (setKey s k d).length = s.length
  | [] => by intro h; simp at h
  | (a, v) :: rest => by
    intro h
    by_cases hak : a = k
    · simp [setKey, hak]
    · rw [List.filter_cons, if_neg (by simp [hak])] at h
      simp [setKey, hak, setKey_present_length k d rest h]

/-- Claim C2 (confirmed): the store's `set(key, value)`
(src/keep_alive.py lines 75-91, src/main.py lines 410-414) is
read-then-write — when no row holds the key a row is appended, when a
row holds the key it is updated in place without changing the row
count; setting the key twice (as `mark_done_today` twice in a day
does) leaves exactly one row for the key, holding the set value, as
long as the store held at most one row for it; and the number of rows
for a key after a set is `max(previous count, 1)`, so duplicate rows
never accumulate. -/
theorem setKey_read_then_write_idempotent (s : List (String × String))
    (k d : String) :
    (s.filter (fun row => decide (row.1 = k)) = [] →
       setKey s k d = s ++ [(k, d)]) ∧
    (s.filter (fun row => decide (row.1 = k)) ≠ [] →
       (setKey s k d).length = s.length) ∧
    ((s.filter (fun row => decide (row.1 = k))).length ≤ 1 →
       (setKey (setKey s k d) k d).filter (fun row => decide (row.1 = k))
         = [(k, d)]) ∧
    ((setKey s k d).filter (fun row => decide (row.1 = k))).length
      = max (s.filter (fun row => decide (row.1 = k))).length 1 := by
  refine ⟨setKey_absent k d s, setKey_present_length k d s, ?_, ?_⟩
  · intro h1
    rw [setKey_filter k d, setKey_filter k d]
    simp only [List.drop_succ_cons, List.drop_zero]
    rw [List.drop_eq_nil_of_le (by omega)]
  · rw [setKey_filter k d]
    simp only [List.length_cons, List.length_drop]
    omega

/-- A concrete state sheet with two rows. -/
def stateRows : List (String × String) :=
  [("last_eod_run", "2026-10-11"), ("health", "ok")]

/-- Witness for C2 on the concrete state sheet `stateRows`. -/
theorem setKey_read_then_write_idempotent_witness :
    setKey [] "last_eod_run" "2026-10-12"
      = [("last_eod_run", "2026-10-12")] ∧
    (setKey stateRows ("last_eod_run") ("2026-10-12")).length = 2 ∧
    (setKey (setKey stateRows ("last_eod_run") ("2026-10-12")) "last_eod_run"
        "2026-10-12").filter
        (fun row => decide (row.1 = "last_eod_run"))
      = [("last_eod_run", "2026-10-12")] :=
  ⟨(setKey_read_then_write_idempotent [] "last_eod_run" "2026-10-12").1
     (by simp),
   (setKey_read_then_write_idempotent stateRows ("last_eod_run")
       ("2026-10-12")).2.1 (by simp [stateRows]),
   (setKey_read_then_write_idempotent stateRows ("last_eod_run")
       ("2026-10-12")).2.2.1 (by simp [stateRows])⟩

/-- Claim C3 (corrected): a batch-write failure after scoring is caught
(src/main.py lines 416-418), so the run completes with the same picks
whatever the write outcome — the scoring/allocation computation is
unaffected by write failures. -/
theorem morning_run_write_failure_still_completes (w : Bool) (noise : ℚ)
    (results : List ScoredR) :
    morning_run true w noise results
      = RunOutcome.completed (rankAndAllocate noise results) w := rfl

/-- Claim C3 (corrected), counterexample: a state-store read failure
during initialization makes `morning_run` return before any scoring or
allocation happens (`except ...: return`, src/main.py lines 303-305),
so the claim that a store read failure never aborts the
scoring/allocation computation is false. -/
theorem morning_run_state_read_failure_aborts :
    morning_run false true 0 [] = RunOutcome.aborted := rfl

lemma mem_insertDesc (r y : ScoredR) :
    ∀ (l : List ScoredR), y ∈ insertDesc r l → y = r ∨ y ∈ l
  | [] => by simp [insertDesc]
  | x :: xs => by
    rw [insertDesc]
    split_ifs with h
    · intro hy
      rcases List.mem_cons.mp hy with h1 | h2
      · exact Or.inr (List.mem_cons.mpr (Or.inl h1))
      · rcases mem_insertDesc r y xs h2 with h3 | h4
        · exact Or.inl h3
        · exact Or.inr (List.mem_cons.mpr (Or.inr h4))
    · intro hy
      rcases List.mem_cons.mp hy with h1 | h2
      · exact Or.inl h1
      · exact Or.inr h2

lemma pairwise_insertDesc (r : ScoredR) :
    ∀ (l : List ScoredR),
      l.Pairwise (fun a b => b.score ≤ a.score) →
      (insertDesc r l).Pairwise (fun a b => b.score ≤ a.score)
  | [] => by simp [insertDesc]
  | x :: xs => by
    intro hp
    rw [List.pairwise_cons] at hp
    obtain ⟨hx, hxs⟩ := hp
    rw [insertDesc]
    split_ifs with h
    · rw [List.pairwise_cons]
      refine ⟨?_, pairwise_insertDesc r xs hxs⟩
      intro y hy
      rcases mem_insertDesc r y xs hy with rfl | hmem
      · exact le_of_lt h
      · exact hx y hmem
    · rw [List.pairwise_cons]
      refine ⟨?_, List.pairwise_cons.mpr ⟨hx, hxs⟩⟩
      intro y hy
      rcases List.mem_cons.mp hy with rfl | hmem
      · exact not_lt.mp h
      · exact le_trans (hx y hmem) (not_lt.mp h)

lemma filter_insertDesc_eq (r : ScoredR) (s : ℤ) (hr : r.score = s) :
    ∀ (l : List ScoredR),
      (insertDesc r l).filter (fun x => decide (x.score = s))
        = r :: l.filter (fun x => decide (x.score = s))
  | [] => by simp [insertDesc, hr]
  | x :: xs => by
    rw [insertDesc]
    split_ifs with h
    · have hxne : ¬ (x.score = s) := by omega
      rw [List.filter_cons, if_neg (by simp [hxne])]
      rw [List.filter_cons, if_neg (by simp [hxne])]
      exact filter_insertDesc_eq r s hr xs
    · rw [List.filter_cons, if_pos (by simp [hr])]

lemma filter_insertDesc_ne (r : ScoredR) (s : ℤ) (hr : ¬ (r.score = s)) :
    ∀ (l : List ScoredR),
      (insertDesc r l).filter (fun x => decide (x.score = s))
        = l.filter (fun x => decide (x.score = s))
  | [] => by simp [insertDesc, hr]
  | x :: xs => by
    rw [insertDesc]
    split_ifs with h
    · rw [List.filter_cons, List.filter_cons]
      rw [filter_insertDesc_ne r s hr xs]
    · rw [List.filter_cons, if_neg (by simp [hr])]

/-- Claim C7 (corrected): the ranked sequence is sorted by score
descending, and within each score class the arrival order is preserved
(Python's `list.sort` is stable and the code sorts on the score key
only, src/main.py line 341) — there is no symbol tie-break. -/
theorem ranking_sorted_and_stable (l : List ScoredR) (s : ℤ) :
    (sortResults l).Pairwise (fun a b => b.score ≤ a.score) ∧
    (sortResults l).filter (fun x => decide (x.score = s))
      = l.filter (fun x => decide (x.score = s)) := by
  induction l with
  | nil => exact ⟨List.Pairwise.nil, rfl⟩
  | cons a l ih =>
    constructor
    · exact pairwise_insertDesc a (sortResults l) ih.1
    · show (insertDesc a (sortResults l)).filter _ = _
      by_cases ha : a.score = s
      · rw [filter_insertDesc_eq a s ha (sortResults l), ih.2,
          List.filter_cons, if_pos (by simp [ha])]
      · rw [filter_insertDesc_ne a s ha (sortResults l), ih.2,
          List.filter_cons, if_neg (by simp [ha])]

lemma lookupCount_setCount_self :
    ∀ (cs : List (String × Nat)) (sec : String) (n : Nat),
      lookupCount (setCount cs sec n) sec = n
  | [], sec, n => by simp [setCount, lookupCount]
  | (k, c) :: rest, sec, n => by
    by_cases h : k = sec
    · simp [setCount, lookupCount, h]
    · simp [setCount, lookupCount, h, lookupCount_setCount_self rest sec n]

lemma lookupCount_setCount_ne :
    ∀ (cs : List (String × Nat)) (sec1 sec2 : String) (n : Nat),
      ¬ (sec1 = sec2) →
      lookupCount (setCount cs sec1 n) sec2 = lookupCount cs sec2
  | [], sec1, sec2, n => by
    intro h
    simp [setCount, lookupCount, h]
  | (k, c) :: rest, sec1, sec2, n => by
    intro h
    by_cases hk : k = sec1
    · subst hk
      simp [setCount, lookupCount, h]
    · simp [setCount, lookupCount, hk,
        lookupCount_setCount_ne rest sec1 sec2 n h]

/-- How many entries of a pick list hold a BUY-tier bucket in a given
sector (the rows `morning_run` would log as buys for that sector). -/
def buysInSector (picks : List (ScoredR × Bucket)) (sec : String) : Nat :=
  (picks.filter (fun p => p.2.isBuy && decide (p.1.sector = sec))).length

lemma assignBuckets_buys_le :
    ∀ (ro : Bool) (l : List ScoredR) (counts : List (String × Nat))
      (sec : String),
      buysInSector (assignBuckets ro l counts) sec
        + min (lookupCount counts sec) SECTOR_CAP ≤ SECTOR_CAP
  | ro, [], counts, sec => by
    simp only [assignBuckets, buysInSector, List.filter_nil,
      List.length_nil, Nat.zero_add]
    omega
  | ro, r :: rest, counts, sec => by
    rw [assignBuckets]
    cases hbuy : (baseBucket ro r).isBuy
    case false =>
      have happ : applySectorCap counts r.sector (baseBucket ro r)
          = (baseBucket ro r, counts) := by
        rw [applySectorCap, hbuy]
        simp
      rw [happ, buysInSector, List.filter_cons, if_neg (by simp [hbuy])]
      exact assignBuckets_buys_le ro rest counts sec
    case true =>
      by_cases hcap : SECTOR_CAP ≤ lookupCount counts r.sector
      · have happ : applySectorCap counts r.sector (baseBucket ro r)
            = (Bucket.WATCHLIST, counts) := by
          rw [applySectorCap, hbuy]
          simp [hcap]
        rw [happ, buysInSector, List.filter_cons,
          if_neg (by simp [Bucket.isBuy])]
        exact assignBuckets_buys_le ro rest counts sec
      · have happ : applySectorCap counts r.sector (baseBucket ro r)
            = (baseBucket ro r,
               setCount counts r.sector (lookupCount counts r.sector + 1)) := by
          rw [applySectorCap, hbuy]
          simp [hcap]
        rw [happ, buysInSector, List.filter_cons]
        by_cases hsec : r.sector = sec
        · rw [if_pos (by simp [hbuy, hsec])]
          subst hsec
          have h2 := assignBuckets_buys_le ro rest
            (setCount counts r.sector (lookupCount counts r.sector + 1))
            r.sector
          rw [lookupCount_setCount_self] at h2
          have hc : lookupCount counts r.sector < SECTOR_CAP :=
            Nat.lt_of_not_le hcap
          rw [buysInSector] at h2
          simp only [List.length_cons]
          omega
        · rw [if_neg (by simp [hsec])]
          have h2 := assignBuckets_buys_le ro rest
            (setCount counts r.sector (lookupCount counts r.sector + 1)) sec
          rw [lookupCount_setCount_ne counts r.sector sec _ hsec] at h2
          exact h2

/-- Claim C1 (corrected): the only allocation invariant the run
enforces is the count cap of src/main.py lines 355-361 — every sector
receives at most `SECTOR_CAP = 2` entries carrying a BUY-tier bucket
in any produced pick list; there are no size fractions and no global
exposure cap. -/
theorem allocation_sector_buy_cap (noise : ℚ) (results : List ScoredR)
    (sec : String) :
    buysInSector (rankAndAllocate noise results) sec ≤ SECTOR_CAP := by
  have h := assignBuckets_buys_le (riskOffFlag noise)
    (sortResults (results.filter (fun r => decide (55 ≤ r.score)))) [] sec
  simp only [lookupCount] at h
  rw [rankAndAllocate]
  omega

/-- Claim C6 (corrected): a candidate is assigned STRONG_BUY exactly
when `score ≥ 80`, it is a breakout, the macro risk-off flag is off —
i.e. noise ≤ 0.75, the code's threshold (src/main.py line 314), not
the spec's 0.6 — and its sector still has a free BUY slot (lines
348-359); the squeeze flag is not consulted. -/
theorem strong_buy_characterization (noise : ℚ)
    (counts : List (String × Nat)) (r : ScoredR) :
    (applySectorCap counts r.sector (baseBucket (riskOffFlag noise) r)).1
        = Bucket.STRONG_BUY
      ↔ (80 ≤ r.score ∧ r.breakout = true ∧ noise ≤ 3/4
          ∧ lookupCount counts r.sector < SECTOR_CAP) := by
  have hro : (riskOffFlag noise = false) ↔ noise ≤ 3/4 := by
    simp [riskOffFlag, not_lt]
  rw [baseBucket]
  split_ifs with h1 h2
  · by_cases hcap : SECTOR_CAP ≤ lookupCount counts r.sector
    · have hres : (applySectorCap counts r.sector Bucket.STRONG_BUY).1
          = Bucket.WATCHLIST := by
        rw [applySectorCap]
        simp [Bucket.isBuy, hcap]
      rw [hres]
      constructor
      · intro habs
        simp at habs
      · rintro ⟨-, -, -, hlt⟩
        omega
    · have hres : (applySectorCap counts r.sector Bucket.STRONG_BUY).1
          = Bucket.STRONG_BUY := by
        rw [applySectorCap]
        simp [Bucket.isBuy, hcap]
      rw [hres]
      constructor
      · intro _
        exact ⟨h1.1, h1.2.1, hro.mp h1.2.2, Nat.lt_of_not_le hcap⟩
      · intro _
        rfl
  · have hres : (applySectorCap counts r.sector Bucket.BUY).1 = Bucket.BUY
        ∨ (applySectorCap counts r.sector Bucket.BUY).1 = Bucket.WATCHLIST := by
      rw [applySectorCap]
      simp only [Bucket.isBuy]
      split_ifs <;> simp
    constructor
    · intro habs
      rcases hres with h | h <;> rw [h] at habs <;> simp at habs
    · rintro ⟨hs, hb, hn, -⟩
      exact absurd ⟨hs, hb, hro.mpr hn⟩ h1
  · have hres : (applySectorCap counts r.sector Bucket.WATCHLIST).1
        = Bucket.WATCHLIST := by
      rw [applySectorCap]
      simp [Bucket.isBuy]
    rw [hres]
    constructor
    · intro habs
      simp at habs
    · rintro ⟨hs, hb, hn, -⟩
      exact absurd ⟨hs, hb, hro.mpr hn⟩ h1

/-- A candidate record with the given symbol, sector, score, breakout
and squeeze flags (the numeric fields other claims do not vary). -/
def mkScored (sym sec : String) (sc : ℤ) (bo sq : Bool) : ScoredR :=
  { score := sc, volFactor := 1, squeeze := sq, breakout := bo
    sl := 90, tgt := 110, price := 100, symbol := sym, sector := sec }

lemma riskOffFlag_zero : riskOffFlag 0 = false := by
  simp only [riskOffFlag, decide_eq_false_iff_not]
  norm_num

lemma riskOffFlag_seven_tenths : riskOffFlag (7/10) = false := by
  simp only [riskOffFlag, decide_eq_false_iff_not]
  norm_num

/-- Two equal-scored candidates differing only in symbol. -/
def rAAA : ScoredR := mkScored ("AAA") ("TECH") 70 false false

/-- See `rAAA`. -/
def rBBB : ScoredR := mkScored ("BBB") ("TECH") 70 false false

/-- Claim C7 (corrected), counterexample: two candidates with equal
score 70; under one arrival order the ranked sequence is
`[AAA, BBB]`, under the other `[BBB, AAA]` — the output depends on
the arrival order and ties are not broken by symbol name. -/
theorem ranking_depends_on_arrival_order :
    sortResults [rAAA, rBBB] ≠ sortResults [rBBB, rAAA] := by
  have h1 : sortResults [rAAA, rBBB] = [rAAA, rBBB] := by
    simp [sortResults, insertDesc, rAAA, rBBB, mkScored]
  have h2 : sortResults [rBBB, rAAA] = [rBBB, rAAA] := by
    simp [sortResults, insertDesc, rAAA, rBBB, mkScored]
  rw [h1, h2]
  intro hcontra
  simp [rAAA, rBBB, mkScored] at hcontra

/-- A squeezed breakout candidate with score 85. -/
def rSqz : ScoredR := mkScored ("SQZ") ("TECH") 85 true true

/-- Claim C6 (corrected), counterexample: with noise 0.7 the spec's
`risk_on = noise ≤ 0.6` is false and the candidate is squeezed, yet
the run assigns STRONG_BUY — the code's gate is `noise > 0.75` and it
never consults the squeeze flag. -/
theorem strong_buy_spec_gating_violated :
    (rankAndAllocate (7/10) [rSqz]).map (fun p => p.2) = [Bucket.STRONG_BUY]
      ∧ ¬ ((7/10 : ℚ) ≤ 6/10) ∧ rSqz.squeeze = true := by
  refine ⟨?_, by norm_num, rfl⟩
  rw [rankAndAllocate, riskOffFlag_seven_tenths]
  simp [rSqz, mkScored, sortResults, insertDesc, assignBuckets,
    applySectorCap, baseBucket, lookupCount, setCount, SECTOR_CAP,
    Bucket.isBuy]

/-- Seven BUY-grade candidates spread over four sectors. -/
def c1List : List ScoredR :=
  [mkScored ("A1") ("SA") 70 false false, mkScored ("A2") ("SA") 70 false false,
   mkScored ("B1") ("SB") 70 false false, mkScored ("B2") ("SB") 70 false false,
   mkScored ("Ca") ("SC") 70 false false, mkScored ("Cb") ("SC") 70 false false,
   mkScored ("D1") ("SD") 70 false false]

/-- Modelled from the spec (§4.4): the bucket → size-fraction table
`STRONG_BUY→0.25, BUY→0.15, WATCHLIST→0.05` (the code has no size
fractions at all). -/
def spec_size_fraction : Bucket → ℚ
  | .STRONG_BUY => 1/4
  | .BUY => 3/20
  | .WATCHLIST => 1/20

/-- Modelled from the spec (§9): the global exposure cap 0.90 (the
code enforces no global cap). -/
def spec_global_exposure_cap : ℚ := 9/10

/-- Claim C1 (corrected), counterexample: seven BUY picks across four
sectors all survive the per-sector count cap, and their spec-table
size fractions sum to 7 × 0.15 = 1.05 > 0.90 — the run emits a plan
whose total exposure exceeds the claimed global cap. -/
theorem allocation_global_exposure_violated :
    ¬ (((rankAndAllocate 0 c1List).map
          (fun p => spec_size_fraction p.2)).sum
        ≤ spec_global_exposure_cap) := by
  have hplan :
      (rankAndAllocate 0 c1List).map (fun p => spec_size_fraction p.2)
        = List.replicate 7 (3/20 : ℚ) := by
    rw [rankAndAllocate, riskOffFlag_zero]
    simp [c1List, mkScored, sortResults, insertDesc, assignBuckets,
      applySectorCap, baseBucket, lookupCount, setCount, SECTOR_CAP,
      Bucket.isBuy, spec_size_fraction, List.replicate]
  rw [hplan, List.sum_replicate]
  norm_num [spec_global_exposure_cap, smul_eq_mul]
